import Mathlib

/-!
Verification of the recent-file locator in `src/collect_nse_csv.py`.

The Python module is embedded shallowly:

* Paths are lists of name components; the printable form `str(p)` is the
  components joined with "/".
* The ambient filesystem is explicit data: a shallow directory is a listing
  (`SDir`), the deep scan works on directory trees (`DirTree`), and the
  platform-specific root enumeration of `_enumerate_accessible_roots` is
  modelled by a list of root candidates (`RootCand`) whose `probeOk` flag is
  the outcome of the `_is_accessible_dir` probe.
* Fallible per-item system calls are data as well: a failing `stat` is
  `mtime = none`, an unlistable directory is `readable = false`.  The source
  wraps each of these sites in `try/except` (lines 145-170, 175-180 and the
  `onerror` callback of `os.walk`), so the embedded functions are total and
  simply skip the faulty item, exactly as the code does.
* Modification times and the recency cutoff are integers (`time.time()` is
  passed in as `now`).
-/

/-- Python `str.lower` restricted to ASCII, which is all the repository's
strings use (`pat.lower()`, `str(p).lower()`, `name.lower()`). -/
def lowerChar (c : Char) : Char :=
  if 65 ≤ c.toNat ∧ c.toNat ≤ 90 then Char.ofNat (c.toNat + 32) else c

/-- Python `str.upper` restricted to ASCII (`pat.upper()`). -/
def upperChar (c : Char) : Char :=
  if 97 ≤ c.toNat ∧ c.toNat ≤ 122 then Char.ofNat (c.toNat - 32) else c

/-- Lowercase a string character by character, as `str.lower` does on ASCII. -/
def lowerStr (s : String) : String :=
  String.mk (s.data.map lowerChar)

/-- Uppercase a string character by character, as `str.upper` does on ASCII. -/
def upperStr (s : String) : String :=
  String.mk (s.data.map upperChar)

/-- Python `str.endswith`. -/
def ends_with (s suf : String) : Bool :=
  List.isSuffixOf suf.data s.data

/-- Join path components with "/", the printable form `str(p)` of a path. -/
def joinPath : List String → String
  | [] => ""
  | [c] => c
  | c :: cs => c ++ "/" ++ joinPath cs

/-- The glob / `fnmatch` matcher backing `pathlib`'s `Path.glob` and
`Path.match` on a single path component: `*` matches any (possibly empty)
run of characters, `?` matches exactly one character, anything else matches
itself.  The repository's patterns (`MW-SGB*.csv`, `nse_sgb_data*.csv`) use
no character classes, so classes are not modelled.  The `Nat` argument is
fuel making the recursion structural; every recursive call shrinks
`pat.length + name.length`, so fuel `pat.length + name.length + 1` is never
exhausted (`globMatchAux_fuel_eq` below shows any sufficient fuel gives the
same answer). -/
def globMatchAux : Nat → List Char → List Char → Bool
  | 0, _, _ => false
  | Nat.succ _, [], name => name.isEmpty
  | Nat.succ n, p :: ps, [] => if p = '*' then globMatchAux n ps [] else false
  | Nat.succ n, p :: ps, c :: cs =>
    if p = '*' then globMatchAux n ps (c :: cs) || globMatchAux n (p :: ps) cs
    else (p == '?' || p == c) && globMatchAux n ps cs

/-- Match a glob pattern against a name, with fuel that always suffices. -/
def globMatch (pat name : List Char) : Bool :=
  globMatchAux (pat.length + name.length + 1) pat name

/-- Python `Path(name).match(pat)` for a single-component name and pattern,
which is `fnmatch.fnmatchcase(name, pat)` (case-sensitive). -/
def path_match (name pat : String) : Bool :=
  globMatch pat.data name.data

/-- Python `PurePath.suffix` of a file name: the part from the last dot on,
provided that dot is neither the first nor the last character, else "". -/
def pySuffix (name : String) : String :=
  let cs := name.data
  let r := cs.reverse.findIdx (fun c => c == '.')
  if r < cs.length then
    let i := cs.length - 1 - r
    if 0 < i ∧ i < cs.length - 1 then String.mk (cs.drop i) else ""
  else ""

/-- `DEFAULT_PATTERNS` (collect_nse_csv.py line 9). -/
def DEFAULT_PATTERNS : List String := ["MW-SGB*.csv", "nse_sgb_data*.csv"]

/-- `IGNORE_SUFFIXES` (line 12): temporary/partial download suffixes. -/
def IGNORE_SUFFIXES : List String := [".crdownload", ".part", ".tmp"]

/-- `SKIP_DIR_NAMES` (lines 15-20): directory names pruned in deep scans. -/
def SKIP_DIR_NAMES : List String :=
  ["windows", "program files", "program files (x86)", "programdata",
   "$recycle.bin", "system volume information",
   "appdata", "cache", ".cache", "temp", "tmp",
   ".git", ".svn", "node_modules", "__pycache__"]

/-- A directory entry as seen by a shallow `d.glob(pat)` listing: its name,
whether `p.is_file()` holds, and the result of `p.stat().st_mtime`
(`none` models a raising `stat`, caught at line 179-180). -/
structure SEntry where
  name : String
  isFile : Bool
  mtime : Option Int
deriving DecidableEq, Repr

/-- A directory handed to the shallow search: its path, whether globbing it
succeeds (the `try/except` of `_list_matches`, lines 42-48), and its
entries. -/
structure SDir where
  path : List String
  readable : Bool
  entries : List SEntry
deriving DecidableEq, Repr

/-- A file met during the deep walk: `os.walk` reports its name; `mtime`
is `p.stat().st_mtime`, `none` modelling a raising `stat` (caught at
lines 169-170). -/
structure FileEnt where
  name : String
  mtime : Option Int
deriving DecidableEq, Repr

/-- A directory tree for the deep walk.  `readable = false` models a
directory whose `scandir` fails: `os.walk`'s `onerror` callback swallows
the error, so nothing beneath it is visited. -/
inductive DirTree where
  | node (name : String) (readable : Bool) (files : List FileEnt) (subs : List DirTree)

/-- Name of a tree's root directory. -/
def DirTree.name : DirTree → String
  | .node n _ _ _ => n

/-- A candidate filesystem root in deep mode, with the outcome of the
`_is_accessible_dir` probe (lines 51-60): probing failures are swallowed
and the root is simply omitted. -/
structure RootCand where
  probeOk : Bool
  tree : DirTree

/-- `_enumerate_accessible_roots` (lines 62-127): keep exactly the roots
whose accessibility probe succeeded.  The drive-type query and the
resolve-based deduplication are platform I/O not visible to any claim;
the roots list stands for the post-platform-filter candidates. -/
def enumerate_accessible_roots (roots : List RootCand) : List DirTree :=
  (roots.filter (fun r => r.probeOk)).map (fun r => r.tree)

/-- A discovered candidate file: its path and the modification time its
successful `stat` returned. -/
structure Cand where
  path : List String
  mtime : Int
deriving DecidableEq, Repr

/-- Case-insensitive pattern test of the deep branch (lines 156-162):
`Path(name).match` tried on the pattern as given, lowercased, and
uppercased. -/
def matches_any_casing (patterns : List String) (name : String) : Bool :=
  patterns.any (fun pat =>
    path_match name pat || path_match name (lowerStr pat) ||
      path_match name (upperStr pat))

/-- The per-file body of the deep walk loop (lines 145-170): extension
check, ignored-suffix check on the lowercased full path, three-casing
pattern match, then the recency test on the `stat` result; a failing
`stat` is caught and the file skipped. -/
def check_file_deep (patterns : List String) (cutoff : Int) (cur : List String)
    (f : FileEnt) : Option Cand :=
  let p := cur ++ [f.name]
  let pstr := joinPath p
  if lowerStr (pySuffix f.name) != ".csv" then none
  else if IGNORE_SUFFIXES.any (fun suf => ends_with (lowerStr pstr) suf) then none
  else if !(matches_any_casing patterns f.name) then none
  else match f.mtime with
    | none => none
    | some t => if cutoff ≤ t then some ⟨p, t⟩ else none

mutual

/-- The deep walk (lines 137-170): `os.walk(root, topdown=True, onerror=...)`
with the in-place pruning `dirnames[:] = [n for n in dirnames if n.lower()
not in SKIP_DIR_NAMES]` (line 143) applied before descending, fused with the
per-file filter.  `scanForest` walks the pending subdirectories left after
pruning. -/
def scanTree (patterns : List String) (cutoff : Int) (pref : List String) :
    DirTree → List Cand
  | .node nm rd files subs =>
    if rd then
      files.filterMap (check_file_deep patterns cutoff (pref ++ [nm]))
        ++ scanForest patterns cutoff (pref ++ [nm]) subs
    else []

/-- Walk the pending subdirectory list of one `os.walk` step, skipping any
directory whose lowercased name is in `SKIP_DIR_NAMES` (line 143). -/
def scanForest (patterns : List String) (cutoff : Int) (pref : List String) :
    List DirTree → List Cand
  | [] => []
  | t :: ts =>
    (if SKIP_DIR_NAMES.contains (lowerStr t.name) then []
     else scanTree patterns cutoff pref t)
      ++ scanForest patterns cutoff pref ts

end

/-- `_list_matches` (lines 36-49): for each pattern, glob the directory with
the pattern as given, lowercased and uppercased, concatenating the results;
a directory that cannot be globbed yields nothing. -/
def list_matches (d : SDir) (patterns : List String) : List SEntry :=
  if d.readable then
    patterns.flatMap (fun pat =>
      (d.entries.filter (fun e => path_match e.name pat))
        ++ (d.entries.filter (fun e => path_match e.name (lowerStr pat)))
        ++ (d.entries.filter (fun e => path_match e.name (upperStr pat))))
  else []

/-- The per-file body of the shallow loop (lines 173-180): `p.is_file()`,
extension check, recency test on `stat` (failures caught and skipped), and
the ignored-suffix check on the lowercased full path. -/
def check_file_shallow (cutoff : Int) (dirPath : List String) (e : SEntry) :
    Option Cand :=
  let p := dirPath ++ [e.name]
  let pstr := joinPath p
  if e.isFile && (lowerStr (pySuffix e.name) == ".csv") then
    match e.mtime with
    | none => none
    | some t =>
      if cutoff ≤ t then
        if !(IGNORE_SUFFIXES.any (fun suf => ends_with (lowerStr pstr) suf)) then
          some ⟨p, t⟩
        else none
      else none
  else none

/-- The unsorted candidate aggregation of `_recent_files` (lines 129-181):
deep mode walks every accessible root with pruning, shallow mode filters the
case-insensitive glob listing of each given directory. -/
def gathered_files (dirs : List SDir) (roots : List RootCand)
    (patterns : List String) (now recent_minutes : Int) (deep : Bool) :
    List Cand :=
  let cutoff := now - recent_minutes * 60
  if deep then
    (enumerate_accessible_roots roots).flatMap
      (fun t => scanTree patterns cutoff [] t)
  else
    dirs.flatMap (fun d =>
      (list_matches d patterns).filterMap (check_file_shallow cutoff d.path))

/-- Comparison used by the final sort of `_recent_files` (line 183):
`a` precedes `b` when `a`'s modification time is at least `b`'s. -/
def candGe (a b : Cand) : Prop := b.mtime ≤ a.mtime

instance : DecidableRel candGe :=
  fun a b => inferInstanceAs (Decidable (b.mtime ≤ a.mtime))

instance : IsTotal Cand candGe := ⟨fun a b => le_total b.mtime a.mtime⟩

instance : IsTrans Cand candGe := ⟨fun _ _ _ h1 h2 => le_trans h2 h1⟩

/-- `_recent_files` (lines 129-184): gather the passing candidates and sort
them by modification time, newest first (`files.sort(key=..., reverse=True)`;
Python's sort is modelled by insertion sort, which likewise returns a
permutation ordered by the key, ties in unspecified order). -/
def recent_files (dirs : List SDir) (roots : List RootCand)
    (patterns : List String) (now recent_minutes : Int) (deep : Bool) :
    List Cand :=
  List.insertionSort candGe
    (gathered_files dirs roots patterns now recent_minutes deep)

/-- The directory side of the filesystem for repo-root discovery and
`mkdir`: the set of paths that exist. -/
structure DirFS where
  existing : List (List String)
deriving DecidableEq, Repr

/-- Python `Path.exists()` against the explicit path set. -/
def pathExistsB (fs : DirFS) (p : List String) : Bool :=
  fs.existing.contains p

/-- The chain `[script_dir] + list(script_dir.parents)` walked by
`_guess_repo_root` (line 31), down to the filesystem root `[]`. -/
def selfAndParents (p : List String) : List (List String) :=
  (List.range (p.length + 1)).map (fun k => p.take (p.length - k))

/-- `_guess_repo_root` (lines 26-34): first ancestor containing `.git` or
`data`, else the script directory itself. -/
def guess_repo_root (fs : DirFS) (scriptDir : List String) : List String :=
  match (selfAndParents scriptDir).find? (fun p =>
      pathExistsB fs (p ++ [".git"]) || pathExistsB fs (p ++ ["data"])) with
  | some p => p
  | none => scriptDir

/-- All prefixes of a path, shortest first, ending with the path itself. -/
def pathPrefixes (p : List String) : List (List String) :=
  (List.range (p.length + 1)).map (fun k => p.take k)

/-- `data_dir.mkdir(parents=True, exist_ok=True)` (line 210): add every
missing prefix of the path; a no-op on the already-present ones. -/
def mkdir_parents (fs : DirFS) (p : List String) : DirFS :=
  ⟨fs.existing ++ (pathPrefixes p).filter (fun q => !(pathExistsB fs q))⟩

/-- Python `", ".join(patterns)` (line 234). -/
def join_comma : List String → String
  | [] => ""
  | [p] => p
  | p :: ps => p ++ ", " ++ join_comma ps

/-- The `FileNotFoundError` message built at lines 232-236. -/
def not_found_message (patterns : List String) (deep : Bool) : String :=
  "Could not find any recent CSVs matching: " ++ join_comma patterns ++
    (if deep then "\n(searched all accessible drives)"
     else "\n(try --deep to search all accessible drives)")

/-- The effect of `patterns = patterns or DEFAULT_PATTERNS` (line 206):
both `None` and an empty (falsy) list fall back to the defaults. -/
def effective_patterns (patterns : Option (List String)) : List String :=
  match patterns with
  | none => DEFAULT_PATTERNS
  | some ps => if ps.isEmpty then DEFAULT_PATTERNS else ps

/-- The candidate-selection policy of `collect_csv` (lines 226-229): shallow
search of the given directories first; the deep search runs only when that
returned nothing and the `deep` flag is set. -/
def selected_candidates (patterns : List String) (search_dirs : List SDir)
    (roots : List RootCand) (now recent_minutes : Int) (deep : Bool) :
    List Cand :=
  let shallow := recent_files search_dirs roots patterns now recent_minutes false
  if shallow.isEmpty && deep then
    recent_files [] roots patterns now recent_minutes true
  else shallow

/-- Outcome of one `collect_csv` invocation: the directory state after the
`mkdir`, and either the not-found error message or the chosen source path
together with the destination path. -/
structure CollectOutcome where
  fs : DirFS
  result : Except String (List String × List String)

/-- `collect_csv` (lines 190-262) up to the move itself: resolve the
effective patterns, locate the repo root, create `<repo>/data/nse_sgb_data`,
run the shallow-then-optionally-deep search, and either fail with the
not-found message or pick the newest candidate and name the destination
(timestamped via `now_stamp`, or the fixed name).  The move of the chosen
file is the separate `move_with_fallback` below; the ambient inputs of
lines 207 and 213-223 (script location, working directory, Downloads, the
TMP/TEMP directories) enter as `script_dir` and `search_dirs`. -/
def collect_csv (patterns : Option (List String)) (keep_timestamped : Bool)
    (fixed_name : String) (recent_minutes : Int) (deep : Bool)
    (script_dir : List String) (fs0 : DirFS) (search_dirs : List SDir)
    (roots : List RootCand) (now : Int) (now_stamp : String) :
    CollectOutcome :=
  let pats := effective_patterns patterns
  let repo_root := guess_repo_root fs0 script_dir
  let data_dir := repo_root ++ ["data", "nse_sgb_data"]
  let fs1 := mkdir_parents fs0 data_dir
  match selected_candidates pats search_dirs roots now recent_minutes deep with
  | [] => ⟨fs1, Except.error (not_found_message pats deep)⟩
  | c :: _ =>
    let dst := data_dir ++
      [if keep_timestamped then "nse_sgb_data_" ++ now_stamp ++ ".csv"
       else fixed_name]
    ⟨fs1, Except.ok (c.path, dst)⟩

/-- A content-bearing filesystem for the mover: paths to byte strings. -/
abbrev CFS := List (String × List Nat)

/-- Read a file's bytes. -/
def fs_read (fs : CFS) (p : String) : Option (List Nat) :=
  match fs.find? (fun kv => kv.1 == p) with
  | some kv => some kv.2
  | none => none

/-- Write (or overwrite) a file's bytes. -/
def fs_write (fs : CFS) (p : String) (c : List Nat) : CFS :=
  (p, c) :: fs.filter (fun kv => kv.1 != p)

/-- Remove a file. -/
def fs_del (fs : CFS) (p : String) : CFS :=
  fs.filter (fun kv => kv.1 != p)

/-- Which of the mover's fallible system calls fail in a given run:
`shutil.move`, `shutil.copy2`, `Path.unlink`. -/
structure MoveEnv where
  move_fails : Bool
  copy_fails : Bool
  unlink_fails : Bool
deriving DecidableEq, Repr

/-- The move block of `collect_csv` (lines 248-256): try `shutil.move`;
on any failure fall back to `shutil.copy2` and then try to delete the
source, swallowing a deletion failure.  A failing copy would escape the
handler (there is no outer one), and a missing source makes both the move
and the copy raise. -/
def move_with_fallback (env : MoveEnv) (fs : CFS) (src dst : String) :
    Except Unit CFS :=
  match fs_read fs src with
  | none => Except.error ()
  | some content =>
    if env.move_fails then
      if env.copy_fails then Except.error ()
      else
        let fs1 := fs_write fs dst content
        if env.unlink_fails then Except.ok fs1
        else Except.ok (fs_del fs1 src)
    else Except.ok (fs_del (fs_write fs dst content) src)

mutual

/-- Erase the fault markers from a tree: drop files whose `stat` fails and
make every directory beneath a readable one readable; an unreadable
directory is replaced by an empty one, since nothing beneath it is ever
visited. -/
def cleanTree : DirTree → DirTree
  | .node nm rd files subs =>
    if rd then
      .node nm true (files.filter (fun f => f.mtime.isSome)) (cleanForest subs)
    else .node nm true [] []

/-- Erase the fault markers from every tree of a list. -/
def cleanForest : List DirTree → List DirTree
  | [] => []
  | t :: ts => cleanTree t :: cleanForest ts

end

/-- Erase the fault markers from a shallow directory: an unlistable
directory becomes an empty one, entries with a failing `stat` are dropped. -/
def cleanSDir (d : SDir) : SDir :=
  if d.readable then ⟨d.path, true, d.entries.filter (fun e => e.mtime.isSome)⟩
  else ⟨d.path, true, []⟩

/-- Erase the fault markers from the root candidates: roots whose
accessibility probe failed disappear, the rest are cleaned. -/
def cleanRoots (roots : List RootCand) : List RootCand :=
  (roots.filter (fun r => r.probeOk)).map (fun r => ⟨true, cleanTree r.tree⟩)

/-- Fuel irrelevance: any fuel exceeding `pat.length + name.length` gives the
same answer, so `globMatch`'s default fuel loses nothing. -/
theorem globMatchAux_fuel_eq : ∀ (n m : Nat) (pat name : List Char),
    pat.length + name.length < n → pat.length + name.length < m →
    globMatchAux n pat name = globMatchAux m pat name := by
  intro n
  induction n with
  | zero => intro m pat name h1 _; omega
  | succ n ih =>
    intro m pat name h1 h2
    cases m with
    | zero => omega
    | succ m =>
      cases pat with
      | nil => rfl
      | cons p ps =>
        have e1 : (p :: ps).length = ps.length + 1 := rfl
        cases name with
        | nil =>
          by_cases hp : p = '*'
          · simp only [globMatchAux, if_pos hp]
            exact ih m ps [] (by omega) (by omega)
          · simp only [globMatchAux, if_neg hp]
        | cons c cs =>
          have e2 : (c :: cs).length = cs.length + 1 := rfl
          have e3 : ('*' :: ps).length = ps.length + 1 := rfl
          by_cases hp : p = '*'
          · simp only [globMatchAux, if_pos hp]
            rw [ih m ps (c :: cs) (by omega) (by omega),
              ih m (p :: ps) cs (by omega) (by omega)]
          · simp only [globMatchAux, if_neg hp]
            rw [ih m ps cs (by omega) (by omega)]

/-- Structural induction for directory trees with the subtree hypothesis. -/
theorem dirtree_ind (P : DirTree → Prop)
    (h : ∀ nm rd files subs, (∀ s ∈ subs, P s) → P (DirTree.node nm rd files subs)) :
    ∀ t, P t := by
  have key : ∀ n t, sizeOf t ≤ n → P t := by
    intro n
    induction n with
    | zero =>
      intro t ht
      cases t with
      | node nm rd files subs => simp only [DirTree.node.sizeOf_spec] at ht; omega
    | succ n ih =>
      intro t ht
      cases t with
      | node nm rd files subs =>
        apply h
        intro s hs
        apply ih
        have hlt := List.sizeOf_lt_of_mem hs
        simp only [DirTree.node.sizeOf_spec] at ht
        omega
  intro t
  exact key (sizeOf t) t le_rfl

/-- Membership in a forest walk: the candidate comes from some pending
subdirectory that survived the pruning. -/
theorem mem_scanForest {patterns : List String} {cutoff : Int}
    {pref : List String} {ts : List DirTree} {c : Cand} :
    c ∈ scanForest patterns cutoff pref ts ↔
      ∃ t ∈ ts, SKIP_DIR_NAMES.contains (lowerStr t.name) = false ∧
        c ∈ scanTree patterns cutoff pref t := by
  induction ts with
  | nil => simp [scanForest]
  | cons t ts ih =>
    by_cases hskip : SKIP_DIR_NAMES.contains (lowerStr t.name)
    · simp [scanForest, hskip, ih]
    · simp only [Bool.not_eq_true] at hskip
      simp [scanForest, hskip, ih]

/-- Membership in one tree walk step. -/
theorem mem_scanTree_node {patterns : List String} {cutoff : Int}
    {pref : List String} {nm : String} {rd : Bool} {files : List FileEnt}
    {subs : List DirTree} {c : Cand} :
    c ∈ scanTree patterns cutoff pref (.node nm rd files subs) ↔
      rd = true ∧
        ((∃ f ∈ files, check_file_deep patterns cutoff (pref ++ [nm]) f = some c) ∨
          c ∈ scanForest patterns cutoff (pref ++ [nm]) subs) := by
  cases rd <;> simp [scanTree, List.mem_filterMap]

/-- What a successful deep filter step guarantees: the candidate's path is
the walked directory plus the file name, its modification time is at least
the cutoff, and its lowercased path carries no ignored suffix. -/
theorem check_file_deep_some {patterns : List String} {cutoff : Int}
    {cur : List String} {f : FileEnt} {c : Cand}
    (h : check_file_deep patterns cutoff cur f = some c) :
    c.path = cur ++ [f.name] ∧ cutoff ≤ c.mtime ∧
      ∀ suf ∈ IGNORE_SUFFIXES, ends_with (lowerStr (joinPath c.path)) suf = false := by
  simp only [check_file_deep] at h
  split at h
  · exact absurd h (by simp)
  split at h
  · exact absurd h (by simp)
  rename_i hign
  split at h
  · exact absurd h (by simp)
  split at h
  · exact absurd h (by simp)
  rename_i t hmt
  split at h
  swap
  · exact absurd h (by simp)
  rename_i hcut
  injection h with h2
  subst h2
  refine ⟨rfl, hcut, ?_⟩
  rw [Bool.not_eq_true, List.any_eq_false] at hign
  intro suf hs
  simpa using hign suf hs

/-- What a successful shallow filter step guarantees. -/
theorem check_file_shallow_some {cutoff : Int} {dirPath : List String}
    {e : SEntry} {c : Cand}
    (h : check_file_shallow cutoff dirPath e = some c) :
    c.path = dirPath ++ [e.name] ∧ cutoff ≤ c.mtime ∧
      ∀ suf ∈ IGNORE_SUFFIXES, ends_with (lowerStr (joinPath c.path)) suf = false := by
  simp only [check_file_shallow] at h
  split at h
  swap
  · exact absurd h (by simp)
  split at h
  · exact absurd h (by simp)
  rename_i t hmt
  split at h
  swap
  · exact absurd h (by simp)
  rename_i hcut
  split at h
  swap
  · exact absurd h (by simp)
  rename_i hign
  injection h with h2
  subst h2
  refine ⟨rfl, hcut, ?_⟩
  rw [Bool.not_eq_true'] at hign
  rw [List.any_eq_false] at hign
  intro suf hs
  simpa using hign suf hs

/-- A failing `stat` makes the deep filter skip the file. -/
theorem check_file_deep_stat_none {patterns : List String} {cutoff : Int}
    {cur : List String} {f : FileEnt} (hm : f.mtime = none) :
    check_file_deep patterns cutoff cur f = none := by
  simp [check_file_deep, hm]

/-- A failing `stat` makes the shallow filter skip the entry. -/
theorem check_file_shallow_stat_none {cutoff : Int} {dirPath : List String}
    {e : SEntry} (hm : e.mtime = none) :
    check_file_shallow cutoff dirPath e = none := by
  simp [check_file_shallow, hm]

/-- Every candidate of a tree walk was produced by a successful deep filter
step somewhere in the tree. -/
theorem scanTree_mem_check {patterns : List String} {cutoff : Int} :
    ∀ t pref c, c ∈ scanTree patterns cutoff pref t →
      ∃ cur f, check_file_deep patterns cutoff cur f = some c := by
  intro t
  induction t using dirtree_ind with
  | h nm rd files subs ih =>
    intro pref c hc
    rw [mem_scanTree_node] at hc
    obtain ⟨-, hc⟩ := hc
    rcases hc with ⟨f, _, hcheck⟩ | hc
    · exact ⟨_, _, hcheck⟩
    · rw [mem_scanForest] at hc
      obtain ⟨t', ht', -, hc⟩ := hc
      exact ih t' ht' _ c hc

/-- Every candidate of a tree walk lies directly beneath the walked root
followed by a chain of surviving (non-skip-named) directories. -/
theorem scanTree_path_shape {patterns : List String} {cutoff : Int} :
    ∀ t pref c, c ∈ scanTree patterns cutoff pref t →
      ∃ mid fname, c.path = pref ++ (t.name :: mid) ++ [fname] ∧
        ∀ d ∈ mid, SKIP_DIR_NAMES.contains (lowerStr d) = false := by
  intro t
  induction t using dirtree_ind with
  | h nm rd files subs ih =>
    intro pref c hc
    rw [mem_scanTree_node] at hc
    obtain ⟨-, hc⟩ := hc
    rcases hc with ⟨f, _, hcheck⟩ | hc
    · refine ⟨[], f.name, ?_, by simp⟩
      have hp := (check_file_deep_some hcheck).1
      simp [DirTree.name, hp]
    · rw [mem_scanForest] at hc
      obtain ⟨t', ht', hskip, hc⟩ := hc
      obtain ⟨mid, fname, hpath, hmid⟩ := ih t' ht' (pref ++ [nm]) c hc
      obtain ⟨n2, rd2, files2, subs2⟩ := t'
      refine ⟨n2 :: mid, fname, ?_, ?_⟩
      · rw [hpath]
        simp [DirTree.name]
      · intro d hd
        rcases List.mem_cons.mp hd with hd | hd
        · subst hd
          simpa [DirTree.name] using hskip
        · exact hmid d hd

/-- Unfolding of the deep candidate aggregation. -/
theorem gathered_deep_eq (dirs : List SDir) (roots : List RootCand)
    (patterns : List String) (now recent_minutes : Int) :
    gathered_files dirs roots patterns now recent_minutes true =
      (enumerate_accessible_roots roots).flatMap
        (fun t => scanTree patterns (now - recent_minutes * 60) [] t) := rfl

/-- Unfolding of the shallow candidate aggregation. -/
theorem gathered_shallow_eq (dirs : List SDir) (roots : List RootCand)
    (patterns : List String) (now recent_minutes : Int) :
    gathered_files dirs roots patterns now recent_minutes false =
      dirs.flatMap (fun d =>
        (list_matches d patterns).filterMap
          (check_file_shallow (now - recent_minutes * 60) d.path)) := rfl

/-- C1: for every file set, pattern list and recency window, in both shallow
and deep mode, `_recent_files` returns no file whose modification time is
older than `now - recency_window` and no file whose lowercased path ends
with an ignored partial-download suffix. -/
theorem recent_files_never_stale_or_partial
    (dirs : List SDir) (roots : List RootCand) (patterns : List String)
    (now recent_minutes : Int) (deep : Bool) :
    ∀ c ∈ recent_files dirs roots patterns now recent_minutes deep,
      now - recent_minutes * 60 ≤ c.mtime ∧
        ∀ suf ∈ IGNORE_SUFFIXES,
          ends_with (lowerStr (joinPath c.path)) suf = false := by
  intro c hc
  rw [recent_files, (List.perm_insertionSort candGe _).mem_iff] at hc
  cases deep with
  | false =>
    rw [gathered_shallow_eq, List.mem_flatMap] at hc
    obtain ⟨d, _, hc⟩ := hc
    rw [List.mem_filterMap] at hc
    obtain ⟨e, _, hch⟩ := hc
    have hprops := check_file_shallow_some hch
    exact ⟨hprops.2.1, hprops.2.2⟩
  | true =>
    rw [gathered_deep_eq, List.mem_flatMap] at hc
    obtain ⟨t, _, hc⟩ := hc
    obtain ⟨cur, f, hch⟩ := scanTree_mem_check t [] c hc
    have hprops := check_file_deep_some hch
    exact ⟨hprops.2.1, hprops.2.2⟩

/-- Instantiation of C1 on a concrete shallow directory containing one
matching, recent file. -/
theorem recent_files_never_stale_or_partial_witness :
    600 - 10 * 60 ≤ (⟨["dl", "MW-SGB-a.csv"], 500⟩ : Cand).mtime ∧
      ∀ suf ∈ IGNORE_SUFFIXES,
        ends_with (lowerStr (joinPath (⟨["dl", "MW-SGB-a.csv"], 500⟩ : Cand).path))
          suf = false :=
  recent_files_never_stale_or_partial
    [⟨["dl"], true, [⟨"MW-SGB-a.csv", true, some 500⟩]⟩] [] ["MW-SGB*.csv"]
    600 10 false ⟨["dl", "MW-SGB-a.csv"], 500⟩ (by decide)

/-- C2: in deep mode a file lying anywhere beneath a directory whose
lowercased name is in the skip-set is never returned: every intermediate
directory on a returned candidate's path (strictly between the walked root
and the file name) has a non-skip name, because the pruning removes
skip-named directories from the pending-subdirectory list before descent. -/
theorem deep_scan_prunes_skip_dirs (dirs : List SDir) (roots : List RootCand)
    (patterns : List String) (now recent_minutes : Int) :
    ∀ c ∈ recent_files dirs roots patterns now recent_minutes true,
      ∀ d ∈ (c.path.drop 1).dropLast,
        SKIP_DIR_NAMES.contains (lowerStr d) = false := by
  intro c hc
  rw [recent_files, (List.perm_insertionSort candGe _).mem_iff,
    gathered_deep_eq, List.mem_flatMap] at hc
  obtain ⟨t, _, hc⟩ := hc
  obtain ⟨mid, fname, hpath, hmid⟩ := scanTree_path_shape t [] c hc
  rw [hpath]
  intro d hd
  apply hmid
  simpa using hd

/-- Instantiation of C2 on a concrete deep world that also contains a
matching file inside a skip-named directory. -/
theorem deep_scan_prunes_skip_dirs_witness :
    SKIP_DIR_NAMES.contains (lowerStr "Users") = false :=
  deep_scan_prunes_skip_dirs []
    [⟨true, .node "C:" true []
      [.node "Users" true [⟨"nse_sgb_data1.csv", some 500⟩] [],
       .node "windows" true [⟨"nse_sgb_data2.csv", some 700⟩] []]⟩]
    ["nse_sgb_data*.csv"] 600 10
    ⟨["C:", "Users", "nse_sgb_data1.csv"], 500⟩ (by decide) "Users" (by decide)

/-- C3: the list `_recent_files` returns is the passing candidates sorted by
modification time in descending order; in particular its first element has
the greatest modification time of the whole list. -/
theorem recent_files_sorted_by_mtime_desc
    (dirs : List SDir) (roots : List RootCand) (patterns : List String)
    (now recent_minutes : Int) (deep : Bool) :
    List.Sorted candGe (recent_files dirs roots patterns now recent_minutes deep)
    ∧ (recent_files dirs roots patterns now recent_minutes deep).Perm
        (gathered_files dirs roots patterns now recent_minutes deep)
    ∧ ∀ h rest,
        recent_files dirs roots patterns now recent_minutes deep = h :: rest →
        ∀ c ∈ recent_files dirs roots patterns now recent_minutes deep,
          c.mtime ≤ h.mtime := by
  refine ⟨List.sorted_insertionSort candGe _, List.perm_insertionSort candGe _, ?_⟩
  intro h rest heq c hc
  have hs : List.Sorted candGe (recent_files dirs roots patterns now recent_minutes deep) :=
    List.sorted_insertionSort candGe _
  rw [heq] at hs hc
  rcases List.mem_cons.mp hc with rfl | hc2
  · exact le_refl _
  · exact List.rel_of_sorted_cons hs c hc2

/-- Instantiation of C3 on three concrete files with mtimes 900 > 500 > 100:
the head of the returned list is the 900 one. -/
theorem recent_files_sorted_by_mtime_desc_witness :
    (⟨["d", "MW-SGB-c.csv"], 100⟩ : Cand).mtime ≤
      (⟨["d", "MW-SGB-a.csv"], 900⟩ : Cand).mtime :=
  (recent_files_sorted_by_mtime_desc
      [⟨["d"], true,
        [⟨"MW-SGB-a.csv", true, some 900⟩, ⟨"MW-SGB-b.csv", true, some 500⟩,
         ⟨"MW-SGB-c.csv", true, some 100⟩]⟩] [] ["MW-SGB*.csv"] 900 15 false).2.2
    ⟨["d", "MW-SGB-a.csv"], 900⟩
    [⟨["d", "MW-SGB-b.csv"], 500⟩, ⟨["d", "MW-SGB-c.csv"], 100⟩] (by decide)
    ⟨["d", "MW-SGB-c.csv"], 100⟩ (by decide)

/-- C4: pattern matching is case-insensitive via three casings: the name
`mw-sgb-20250101.csv` fails the pattern `MW-SGB*.csv` as given but matches
its lowercasing, so the file is found in both shallow and deep mode. -/
theorem pattern_matching_three_casings :
    path_match "mw-sgb-20250101.csv" "MW-SGB*.csv" = false ∧
    path_match "mw-sgb-20250101.csv" (lowerStr "MW-SGB*.csv") = true ∧
    matches_any_casing ["MW-SGB*.csv"] "mw-sgb-20250101.csv" = true ∧
    (⟨["dl", "mw-sgb-20250101.csv"], 500⟩ : Cand) ∈
      recent_files [⟨["dl"], true, [⟨"mw-sgb-20250101.csv", true, some 500⟩]⟩]
        [] ["MW-SGB*.csv"] 600 10 false ∧
    (⟨["/", "dl", "mw-sgb-20250101.csv"], 500⟩ : Cand) ∈
      recent_files []
        [⟨true, .node "/" true []
          [.node "dl" true [⟨"mw-sgb-20250101.csv", some 500⟩] []]⟩]
        ["MW-SGB*.csv"] 600 10 true := by
  decide

/-- Unfolding of `collect_csv` through `selected_candidates`. -/
theorem collect_csv_eq (patterns : Option (List String)) (keep_timestamped : Bool)
    (fixed_name : String) (recent_minutes : Int) (deep : Bool)
    (script_dir : List String) (fs0 : DirFS) (search_dirs : List SDir)
    (roots : List RootCand) (now : Int) (now_stamp : String) :
    collect_csv patterns keep_timestamped fixed_name recent_minutes deep
        script_dir fs0 search_dirs roots now now_stamp =
      ⟨mkdir_parents fs0 (guess_repo_root fs0 script_dir ++ ["data", "nse_sgb_data"]),
       match selected_candidates (effective_patterns patterns) search_dirs roots
           now recent_minutes deep with
       | [] => Except.error (not_found_message (effective_patterns patterns) deep)
       | c :: _ =>
         Except.ok (c.path,
           guess_repo_root fs0 script_dir ++ ["data", "nse_sgb_data"] ++
             [if keep_timestamped then "nse_sgb_data_" ++ now_stamp ++ ".csv"
              else fixed_name])⟩ := by
  cases hsel : selected_candidates (effective_patterns patterns) search_dirs roots
      now recent_minutes deep with
  | nil => simp [collect_csv, hsel]
  | cons c rest => simp [collect_csv, hsel]

/-- C5: `collect_csv` attempts the shallow search first — when it yields
candidates the outcome does not depend on the deep-scan world at all — and
the deep search is consulted exactly when the shallow search returned
nothing and the `deep` flag was set; with the flag unset an empty shallow
search ends in the not-found error without any deep scan. -/
theorem collect_csv_shallow_first_deep_fallback
    (patterns : Option (List String)) (keep_timestamped : Bool)
    (fixed_name : String) (recent_minutes : Int) (deep : Bool)
    (script_dir : List String) (fs0 : DirFS) (search_dirs : List SDir)
    (roots roots2 : List RootCand) (now : Int) (now_stamp : String) :
    (recent_files search_dirs roots (effective_patterns patterns) now
        recent_minutes false ≠ [] →
      selected_candidates (effective_patterns patterns) search_dirs roots now
          recent_minutes deep
        = recent_files search_dirs roots (effective_patterns patterns) now
            recent_minutes false
      ∧ collect_csv patterns keep_timestamped fixed_name recent_minutes deep
          script_dir fs0 search_dirs roots now now_stamp
        = collect_csv patterns keep_timestamped fixed_name recent_minutes deep
            script_dir fs0 search_dirs roots2 now now_stamp)
    ∧ (recent_files search_dirs roots (effective_patterns patterns) now
          recent_minutes false = [] → deep = true →
        selected_candidates (effective_patterns patterns) search_dirs roots now
            recent_minutes deep
          = recent_files [] roots (effective_patterns patterns) now
              recent_minutes true)
    ∧ (recent_files search_dirs roots (effective_patterns patterns) now
          recent_minutes false = [] → deep = false →
        (collect_csv patterns keep_timestamped fixed_name recent_minutes deep
            script_dir fs0 search_dirs roots now now_stamp).result
          = Except.error (not_found_message (effective_patterns patterns) false)) := by
  refine ⟨?_, ?_, ?_⟩
  · intro h
    have hE : (recent_files search_dirs roots (effective_patterns patterns) now
        recent_minutes false).isEmpty = false := by
      cases hl : recent_files search_dirs roots (effective_patterns patterns) now
          recent_minutes false with
      | nil => exact absurd hl h
      | cons a l => rfl
    have hE2 : (recent_files search_dirs roots2 (effective_patterns patterns) now
        recent_minutes false).isEmpty = false := hE
    have h1 : selected_candidates (effective_patterns patterns) search_dirs roots
        now recent_minutes deep
        = recent_files search_dirs roots (effective_patterns patterns) now
            recent_minutes false := by
      simp [selected_candidates, hE]
    have h2 : selected_candidates (effective_patterns patterns) search_dirs roots2
        now recent_minutes deep
        = recent_files search_dirs roots (effective_patterns patterns) now
            recent_minutes false := by
      simp [selected_candidates, hE2]
      rfl
    refine ⟨h1, ?_⟩
    rw [collect_csv_eq, collect_csv_eq, h1, h2]
  · intro h hd
    subst hd
    have hE : (recent_files search_dirs roots (effective_patterns patterns) now
        recent_minutes false).isEmpty = true := by rw [h]; rfl
    simp [selected_candidates, hE]
  · intro h hd
    subst hd
    have hE : (recent_files search_dirs roots (effective_patterns patterns) now
        recent_minutes false).isEmpty = true := by rw [h]; rfl
    have hsel : selected_candidates (effective_patterns patterns) search_dirs roots
        now recent_minutes false = [] := by
      simp [selected_candidates, hE]
      exact h
    rw [collect_csv_eq, hsel]

/-- Instantiation of C5's first clause: with a nonempty shallow result the
selected candidates are the shallow ones and the outcome is the same for two
different deep-scan worlds. -/
theorem collect_csv_shallow_first_deep_fallback_witness :
    selected_candidates (effective_patterns (some ["MW-SGB*.csv"]))
        [⟨["w"], true, [⟨"MW-SGB-w.csv", true, some 500⟩]⟩] [] 600 10 false
      = recent_files [⟨["w"], true, [⟨"MW-SGB-w.csv", true, some 500⟩]⟩] []
          (effective_patterns (some ["MW-SGB*.csv"])) 600 10 false
    ∧ collect_csv (some ["MW-SGB*.csv"]) true "f.csv" 10 false ["s"] ⟨[]⟩
        [⟨["w"], true, [⟨"MW-SGB-w.csv", true, some 500⟩]⟩] [] 600 "ts"
      = collect_csv (some ["MW-SGB*.csv"]) true "f.csv" 10 false ["s"] ⟨[]⟩
          [⟨["w"], true, [⟨"MW-SGB-w.csv", true, some 500⟩]⟩]
          [⟨true, .node "/" true [⟨"MW-SGB-x.csv", some 550⟩] []⟩] 600 "ts" :=
  (collect_csv_shallow_first_deep_fallback (some ["MW-SGB*.csv"]) true "f.csv"
    10 false ["s"] ⟨[]⟩ [⟨["w"], true, [⟨"MW-SGB-w.csv", true, some 500⟩]⟩] []
    [⟨true, .node "/" true [⟨"MW-SGB-x.csv", some 550⟩] []⟩] 600 "ts").1
    (by decide)

/-- Every member of a comma-joined list occurs inside the joined string. -/
theorem join_comma_contains_each :
    ∀ (ps : List String) (p : String), p ∈ ps →
      p.data <:+: (join_comma ps).data := by
  intro ps
  induction ps with
  | nil => intro p hp; simp at hp
  | cons q qs ih =>
    intro p hp
    rcases List.mem_cons.mp hp with rfl | hp2
    · cases qs with
      | nil => exact List.infix_refl _
      | cons r rs =>
        refine ⟨[], (", " ++ join_comma (r :: rs)).data, ?_⟩
        simp [join_comma, String.data_append]
    · cases qs with
      | nil => simp at hp2
      | cons r rs =>
        refine (ih p hp2).trans ⟨(q ++ ", ").data, [], ?_⟩
        simp [join_comma, String.data_append]

/-- Character-level layout of the not-found message. -/
theorem not_found_message_data (patterns : List String) (deep : Bool) :
    (not_found_message patterns deep).data =
      ("Could not find any recent CSVs matching: ").data ++
        ((join_comma patterns).data ++
          (if deep then "\n(searched all accessible drives)"
           else "\n(try --deep to search all accessible drives)").data) := by
  cases deep <;> simp [not_found_message, String.data_append]

/-- C6: `collect_csv` ends in the not-found error exactly when the attempted
policy (shallow, then deep only if requested) produced no candidate, and the
error message contains every searched pattern and the sentence saying
whether the deep search was attempted. -/
theorem collect_csv_not_found_error
    (patterns : Option (List String)) (keep_timestamped : Bool)
    (fixed_name : String) (recent_minutes : Int) (deep : Bool)
    (script_dir : List String) (fs0 : DirFS) (search_dirs : List SDir)
    (roots : List RootCand) (now : Int) (now_stamp : String) :
    ((∃ m, (collect_csv patterns keep_timestamped fixed_name recent_minutes deep
        script_dir fs0 search_dirs roots now now_stamp).result = Except.error m)
      ↔ selected_candidates (effective_patterns patterns) search_dirs roots now
          recent_minutes deep = [])
    ∧ ∀ m, (collect_csv patterns keep_timestamped fixed_name recent_minutes deep
        script_dir fs0 search_dirs roots now now_stamp).result = Except.error m →
        m = not_found_message (effective_patterns patterns) deep
        ∧ (∀ p ∈ effective_patterns patterns, p.data <:+: m.data)
        ∧ (deep = true →
            ("\n(searched all accessible drives)").data <:+: m.data)
        ∧ (deep = false →
            ("\n(try --deep to search all accessible drives)").data <:+: m.data) := by
  rw [collect_csv_eq]
  cases hsel : selected_candidates (effective_patterns patterns) search_dirs roots
      now recent_minutes deep with
  | cons c rest =>
    constructor
    · simp
    · intro m hm
      simp at hm
  | nil =>
    constructor
    · simp
    · intro m hm
      simp only [Except.error.injEq] at hm
      subst hm
      refine ⟨rfl, ?_, ?_, ?_⟩
      · intro p hp
        refine (join_comma_contains_each (effective_patterns patterns) p hp).trans ?_
        rw [not_found_message_data, ← List.append_assoc]
        exact List.infix_append _ _ _
      · intro hd
        subst hd
        rw [not_found_message_data]
        refine List.IsSuffix.isInfix ?_
        rw [← List.append_assoc]
        exact List.suffix_append _ _
      · intro hd
        subst hd
        rw [not_found_message_data]
        refine List.IsSuffix.isInfix ?_
        rw [← List.append_assoc]
        exact List.suffix_append _ _

/-- Instantiation of C6: on an empty world the first default pattern occurs
inside the error message. -/
theorem collect_csv_not_found_error_witness :
    ("MW-SGB*.csv").data <:+: (not_found_message DEFAULT_PATTERNS false).data :=
  ((collect_csv_not_found_error none true "n.csv" 10 false ["s"] ⟨[]⟩ [] [] 600
      "ts").2 (not_found_message DEFAULT_PATTERNS false) (by rfl)).2.1
    "MW-SGB*.csv" (by decide)

/-- Looking up one path is unaffected by filtering out another path. -/
theorem find_filter_ne (q p : String) (h : ¬ q = p) :
    ∀ fs : CFS,
      (fs.filter (fun kv => kv.1 != p)).find? (fun kv => kv.1 == q)
        = fs.find? (fun kv => kv.1 == q) := by
  intro fs
  induction fs with
  | nil => rfl
  | cons kv rest ih =>
    by_cases hk : kv.1 = p
    · have hbq : (kv.1 == q) = false :=
        beq_eq_false_iff_ne.mpr (fun he => h (hk ▸ he).symm)
      have hbp : (kv.1 != p) = false := by simp [bne, hk]
      simp [List.filter_cons, hbp, List.find?_cons, hbq, ih]
    · have hbp : (kv.1 != p) = true := by simp [bne, hk]
      by_cases hq : kv.1 = q
      · have hbq : (kv.1 == q) = true := beq_iff_eq.mpr hq
        simp [List.filter_cons, hbp, List.find?_cons, hbq]
      · have hbq : (kv.1 == q) = false := beq_eq_false_iff_ne.mpr hq
        simp [List.filter_cons, hbp, List.find?_cons, hbq, ih]

/-- Reading back a freshly written file gives its bytes. -/
theorem fs_read_write_self (fs : CFS) (p : String) (c : List Nat) :
    fs_read (fs_write fs p c) p = some c := by
  simp [fs_read, fs_write, List.find?_cons]

/-- Writing one path does not change another path's bytes. -/
theorem fs_read_write_ne (fs : CFS) (p q : String) (c : List Nat) (h : q ≠ p) :
    fs_read (fs_write fs p c) q = fs_read fs q := by
  have hpq : (p == q) = false := beq_eq_false_iff_ne.mpr (fun he => h he.symm)
  simp only [fs_read, fs_write, List.find?_cons, hpq]
  rw [find_filter_ne q p h]

/-- Deleting one path does not change another path's bytes. -/
theorem fs_read_del_ne (fs : CFS) (p q : String) (h : q ≠ p) :
    fs_read (fs_del fs p) q = fs_read fs q := by
  simp only [fs_read, fs_del]
  rw [find_filter_ne q p h]

/-- C7: for any chosen source and destination, if the atomic move fails the
mover falls back to copy-then-delete and still produces a byte-identical
destination file without raising; if the source deletion then also fails the
operation still succeeds and merely leaves the source behind. -/
theorem move_fallback_byte_identical (env : MoveEnv) (fs : CFS) (src dst : String)
    (content : List Nat) (hsrc : fs_read fs src = some content)
    (hcopy : env.copy_fails = false) (hne : src ≠ dst) :
    ∃ fs', move_with_fallback env fs src dst = Except.ok fs'
      ∧ fs_read fs' dst = some content
      ∧ (env.move_fails = true → env.unlink_fails = true →
          fs_read fs' src = some content) := by
  rcases env with ⟨mv, cp, ul⟩
  simp only at hcopy
  subst hcopy
  cases mv
  · refine ⟨fs_del (fs_write fs dst content) src, ?_, ?_, ?_⟩
    · simp [move_with_fallback, hsrc]
    · rw [fs_read_del_ne _ _ _ hne.symm, fs_read_write_self]
    · intro hmv
      simp at hmv
  · cases ul
    · refine ⟨fs_del (fs_write fs dst content) src, ?_, ?_, ?_⟩
      · simp [move_with_fallback, hsrc]
      · rw [fs_read_del_ne _ _ _ hne.symm, fs_read_write_self]
      · intro _ hul
        simp at hul
    · refine ⟨fs_write fs dst content, ?_, ?_, ?_⟩
      · simp [move_with_fallback, hsrc]
      · exact fs_read_write_self _ _ _
      · intro _ _
        rw [fs_read_write_ne _ _ _ _ hne]
        exact hsrc

/-- Instantiation of C7 with a failing move and a failing source deletion. -/
theorem move_fallback_byte_identical_witness :
    ∃ fs', move_with_fallback ⟨true, false, true⟩ [("a", [1, 2, 3])] "a" "b"
        = Except.ok fs'
      ∧ fs_read fs' "b" = some [1, 2, 3]
      ∧ (true = true → true = true → fs_read fs' "a" = some [1, 2, 3]) :=
  move_fallback_byte_identical ⟨true, false, true⟩ [("a", [1, 2, 3])] "a" "b"
    [1, 2, 3] (by rfl) rfl (by decide)

/-- C9: calling `collect_csv` with an empty pattern list behaves identically
to calling it with no patterns: both fall back to the two default vendor
patterns, so an empty list never causes an empty search. -/
theorem collect_csv_empty_patterns_default (keep_timestamped : Bool)
    (fixed_name : String) (recent_minutes : Int) (deep : Bool)
    (script_dir : List String) (fs0 : DirFS) (search_dirs : List SDir)
    (roots : List RootCand) (now : Int) (now_stamp : String) :
    effective_patterns (some []) = DEFAULT_PATTERNS
    ∧ effective_patterns none = DEFAULT_PATTERNS
    ∧ collect_csv (some []) keep_timestamped fixed_name recent_minutes deep
        script_dir fs0 search_dirs roots now now_stamp
      = collect_csv none keep_timestamped fixed_name recent_minutes deep
          script_dir fs0 search_dirs roots now now_stamp :=
  ⟨rfl, rfl, rfl⟩

/-- Path existence is membership in the explicit path set. -/
theorem pathExistsB_iff_mem (fs : DirFS) (p : List String) :
    pathExistsB fs p = true ↔ p ∈ fs.existing := by
  simp only [pathExistsB]
  exact List.elem_iff

/-- After `mkdir(parents=True, exist_ok=True)` the created path exists. -/
theorem pathExistsB_mkdir_self (fs : DirFS) (p : List String) :
    pathExistsB (mkdir_parents fs p) p = true := by
  rw [pathExistsB_iff_mem]
  by_cases hp : p ∈ fs.existing
  · exact List.mem_append.mpr (Or.inl hp)
  · refine List.mem_append.mpr (Or.inr ?_)
    rw [List.mem_filter]
    constructor
    · simp only [pathPrefixes, List.mem_map, List.mem_range]
      exact ⟨p.length, Nat.lt_succ_self _, List.take_length p⟩
    · have hfalse : pathExistsB fs p = false := by
        cases hb : pathExistsB fs p
        · rfl
        · exact absurd ((pathExistsB_iff_mem fs p).mp hb) hp
      simp [hfalse]

/-- The directory state coming out of `collect_csv` is always the input
state with the data directory created. -/
theorem collect_csv_fs (patterns : Option (List String)) (keep_timestamped : Bool)
    (fixed_name : String) (recent_minutes : Int) (deep : Bool)
    (script_dir : List String) (fs0 : DirFS) (search_dirs : List SDir)
    (roots : List RootCand) (now : Int) (now_stamp : String) :
    (collect_csv patterns keep_timestamped fixed_name recent_minutes deep
        script_dir fs0 search_dirs roots now now_stamp).fs
      = mkdir_parents fs0
          (guess_repo_root fs0 script_dir ++ ["data", "nse_sgb_data"]) := by
  rw [collect_csv_eq]

/-- C10: `collect_csv` creates `<repo>/data/nse_sgb_data` (with parents, no
error if present) before searching, so even an invocation that ends in the
not-found error leaves the data directory existing — and when the directory
was absent beforehand, the failing run has changed the filesystem. -/
theorem collect_csv_creates_data_dir (patterns : Option (List String))
    (keep_timestamped : Bool) (fixed_name : String) (recent_minutes : Int)
    (deep : Bool) (script_dir : List String) (fs0 : DirFS)
    (search_dirs : List SDir) (roots : List RootCand) (now : Int)
    (now_stamp : String) :
    pathExistsB (collect_csv patterns keep_timestamped fixed_name recent_minutes
        deep script_dir fs0 search_dirs roots now now_stamp).fs
      (guess_repo_root fs0 script_dir ++ ["data", "nse_sgb_data"]) = true
    ∧ ∀ m, (collect_csv patterns keep_timestamped fixed_name recent_minutes deep
        script_dir fs0 search_dirs roots now now_stamp).result = Except.error m →
        pathExistsB fs0
          (guess_repo_root fs0 script_dir ++ ["data", "nse_sgb_data"]) = false →
        (collect_csv patterns keep_timestamped fixed_name recent_minutes deep
          script_dir fs0 search_dirs roots now now_stamp).fs ≠ fs0 := by
  constructor
  · rw [collect_csv_fs]
    exact pathExistsB_mkdir_self _ _
  · intro m _ h0 heq
    have h1 : pathExistsB (collect_csv patterns keep_timestamped fixed_name
        recent_minutes deep script_dir fs0 search_dirs roots now now_stamp).fs
        (guess_repo_root fs0 script_dir ++ ["data", "nse_sgb_data"]) = true := by
      rw [collect_csv_fs]
      exact pathExistsB_mkdir_self _ _
    rw [heq, h0] at h1
    exact Bool.false_ne_true h1

/-- Instantiation of C10 on an empty world: the failing run leaves the data
directory existing and has changed the directory state. -/
theorem collect_csv_creates_data_dir_witness :
    pathExistsB (collect_csv none true "n.csv" 10 false ["s"] ⟨[]⟩ [] [] 600
        "ts").fs (guess_repo_root ⟨[]⟩ ["s"] ++ ["data", "nse_sgb_data"]) = true
    ∧ (collect_csv none true "n.csv" 10 false ["s"] ⟨[]⟩ [] [] 600 "ts").fs
        ≠ (⟨[]⟩ : DirFS) :=
  ⟨(collect_csv_creates_data_dir none true "n.csv" 10 false ["s"] ⟨[]⟩ [] [] 600
      "ts").1,
   (collect_csv_creates_data_dir none true "n.csv" 10 false ["s"] ⟨[]⟩ [] [] 600
      "ts").2 (not_found_message DEFAULT_PATTERNS false) (by rfl) (by decide)⟩

/-- Filtering out elements the mapping function already rejects does not
change a `filterMap`. -/
theorem filterMap_filter_of_none {α β : Type} (g : α → Option β) (q : α → Bool)
    (h : ∀ x, q x = false → g x = none) :
    ∀ l : List α, (l.filter q).filterMap g = l.filterMap g := by
  intro l
  induction l with
  | nil => rfl
  | cons a as ih =>
    by_cases hq : q a = true
    · simp [List.filter_cons, hq, List.filterMap_cons, ih]
    · have hq2 : q a = false := by
        cases hb : q a
        · rfl
        · exact absurd hb hq
      simp [List.filter_cons, hq2, List.filterMap_cons, h a hq2, ih]

/-- A `filterMap` distributes over `flatMap`. -/
theorem filterMap_flatMap {α β γ : Type} (g : β → Option γ) (h : α → List β) :
    ∀ l : List α,
      (l.flatMap h).filterMap g = l.flatMap (fun a => (h a).filterMap g) := by
  intro l
  induction l with
  | nil => rfl
  | cons a as ih => simp [List.flatMap_cons, List.filterMap_append, ih]

/-- Cleaning preserves a directory's name. -/
theorem cleanTree_name : ∀ t : DirTree, (cleanTree t).name = t.name := by
  intro t
  rcases t with ⟨nm, rd, files, subs⟩
  cases rd <;> simp [cleanTree, DirTree.name]

/-- The forest cleaner is the elementwise cleaner. -/
theorem cleanForest_eq_map : ∀ ts : List DirTree, cleanForest ts = ts.map cleanTree := by
  intro ts
  induction ts with
  | nil => rfl
  | cons t ts ih => simp [cleanForest, ih]

/-- Entries whose `stat` fails contribute nothing to a shallow filter pass. -/
theorem filterMap_check_filter_isSome (cutoff : Int) (dp : List String)
    (q : SEntry → Bool) (es : List SEntry) :
    ((es.filter (fun e => e.mtime.isSome)).filter q).filterMap
        (check_file_shallow cutoff dp)
      = (es.filter q).filterMap (check_file_shallow cutoff dp) := by
  rw [List.filter_comm]
  exact filterMap_filter_of_none _ _
    (fun e he => by
      cases hm : e.mtime with
      | none => exact check_file_shallow_stat_none hm
      | some t => rw [hm] at he; simp at he)
    _

/-- Walking a cleaned forest equals walking the original, given the claim
for each member tree. -/
theorem scanForest_clean_of (patterns : List String) (cutoff : Int) :
    ∀ subs : List DirTree,
      (∀ s ∈ subs, ∀ pref,
        scanTree patterns cutoff pref (cleanTree s)
          = scanTree patterns cutoff pref s) →
      ∀ pref, scanForest patterns cutoff pref (cleanForest subs)
        = scanForest patterns cutoff pref subs := by
  intro subs
  induction subs with
  | nil => intro _ _; rfl
  | cons t ts ih =>
    intro hall pref
    simp only [cleanForest, scanForest]
    rw [cleanTree_name, hall t (by simp) pref,
      ih (fun s hs => hall s (List.mem_cons_of_mem t hs)) pref]

/-- Walking a cleaned tree equals walking the original: unreadable
directories and entries with failing `stat` never contribute. -/
theorem scanTree_cleanTree (patterns : List String) (cutoff : Int) :
    ∀ t : DirTree, ∀ pref,
      scanTree patterns cutoff pref (cleanTree t)
        = scanTree patterns cutoff pref t := by
  intro t
  induction t using dirtree_ind with
  | h nm rd files subs ih =>
    intro pref
    cases rd
    · simp [cleanTree, scanTree, scanForest]
    · have hclean : cleanTree (DirTree.node nm true files subs)
          = DirTree.node nm true (files.filter (fun f => f.mtime.isSome))
              (cleanForest subs) := by
        simp [cleanTree]
      rw [hclean]
      simp only [scanTree, if_pos]
      rw [filterMap_filter_of_none (check_file_deep patterns cutoff (pref ++ [nm]))
          (fun f => f.mtime.isSome)
          (fun f hf => by
            cases hm : f.mtime with
            | none => exact check_file_deep_stat_none hm
            | some t => simp [hm] at hf)
          files,
        scanForest_clean_of patterns cutoff subs (fun s hs pref2 => ih s hs pref2)
          (pref ++ [nm])]

/-- A readable directory's case-insensitive listing, unfolded. -/
theorem list_matches_readable (dp : List String) (es : List SEntry)
    (patterns : List String) :
    list_matches ⟨dp, true, es⟩ patterns =
      patterns.flatMap (fun pat =>
        es.filter (fun e => path_match e.name pat)
          ++ es.filter (fun e => path_match e.name (lowerStr pat))
          ++ es.filter (fun e => path_match e.name (upperStr pat))) := rfl

/-- An unlistable directory yields nothing. -/
theorem list_matches_unreadable (dp : List String) (es : List SEntry)
    (patterns : List String) :
    list_matches ⟨dp, false, es⟩ patterns = [] := rfl

/-- One shallow directory contributes the same candidates after cleaning. -/
theorem shallow_dir_clean (patterns : List String) (cutoff : Int) (d : SDir) :
    (list_matches (cleanSDir d) patterns).filterMap
        (check_file_shallow cutoff (cleanSDir d).path)
      = (list_matches d patterns).filterMap (check_file_shallow cutoff d.path) := by
  rcases d with ⟨dp, rd, es⟩
  cases rd
  · have h1 : cleanSDir ⟨dp, false, es⟩ = ⟨dp, true, []⟩ := by simp [cleanSDir]
    rw [h1, list_matches_readable, list_matches_unreadable]
    simp
  · have h1 : cleanSDir ⟨dp, true, es⟩
        = ⟨dp, true, es.filter (fun e => e.mtime.isSome)⟩ := by simp [cleanSDir]
    rw [h1, list_matches_readable, list_matches_readable,
      filterMap_flatMap, filterMap_flatMap]
    congr 1
    funext pat
    simp only [List.filterMap_append]
    rw [filterMap_check_filter_isSome, filterMap_check_filter_isSome,
      filterMap_check_filter_isSome]

/-- Enumerating the cleaned roots gives the cleaned accessible trees. -/
theorem enumerate_cleanRoots :
    ∀ roots : List RootCand,
      enumerate_accessible_roots (cleanRoots roots)
        = (enumerate_accessible_roots roots).map cleanTree := by
  intro roots
  induction roots with
  | nil => rfl
  | cons r rs ih =>
    cases hp : r.probeOk
    · simpa [enumerate_accessible_roots, cleanRoots, List.filter_cons, hp] using ih
    · simpa [enumerate_accessible_roots, cleanRoots, List.filter_cons, hp] using ih

/-- C8: every per-item filesystem error met during root enumeration,
directory walking and candidate filtering is absorbed locally — the faulty
item is skipped and the scan continues — so `_recent_files` computes exactly
what it computes on the fault-free filesystem, and (being a total function
into a list) never lets such an error escape. -/
theorem recent_files_absorbs_item_errors (dirs : List SDir)
    (roots : List RootCand) (patterns : List String)
    (now recent_minutes : Int) (deep : Bool) :
    recent_files dirs roots patterns now recent_minutes deep
      = recent_files (dirs.map cleanSDir) (cleanRoots roots) patterns now
          recent_minutes deep := by
  rw [recent_files, recent_files]
  congr 1
  cases deep
  · rw [gathered_shallow_eq, gathered_shallow_eq]
    induction dirs with
    | nil => rfl
    | cons d ds ih =>
      simp only [List.map_cons, List.flatMap_cons]
      rw [shallow_dir_clean patterns (now - recent_minutes * 60) d, ih]
  · rw [gathered_deep_eq, gathered_deep_eq, enumerate_cleanRoots]
    generalize enumerate_accessible_roots roots = l
    induction l with
    | nil => rfl
    | cons t ts ih =>
      simp only [List.map_cons, List.flatMap_cons]
      rw [scanTree_cleanTree patterns (now - recent_minutes * 60) t [], ih]
